import Mathlib

/-!
Shallow embedding of `pa_chart` (src/pa_chart.py, src/config.py): the
acquisition–retention scheduling engine of a PurpleAir sensor logger.

Modelling conventions:
* Python `datetime` instants are modelled as `Int` seconds; `timedelta(days=d)`
  is `d * 86400` seconds and `timedelta.total_seconds() / 3600` comparisons are
  rescaled exactly (both sides integers).
* Python exceptions are the inductive `PyExn`; `main` catches only
  `KeyboardInterrupt` (src/pa_chart.py line 416), which `main_catches` records.
* A fallible network operation is a stream `Nat → NetResult` giving the outcome
  of each successive call; the `retry` decorator becomes `retry_run`, which
  replays the Python `while attempts < max_attempts` loop with explicit fuel
  and returns the result together with the observable trace (calls made,
  sleeps performed, log events emitted).
* CSV rows are the inductive `Rec`: the header row or a data row.  The data
  row's timestamp is the `Int` instant; `strftime('%Y-%m-%dT%H:%M:%S')` output
  is always 19 characters of digits and punctuation, so it never collides with
  the literal header text — the two constructors are faithfully disjoint.
-/

/-- Python exceptions relevant to the scheduler. -/
inductive PyExn
  | keyError (field : String)
  | keyboardInterrupt
  | unboundLocalError
  | valueError
deriving DecidableEq, Repr

/-- Which exceptions `main` absorbs: the loop sits in `try ... except
KeyboardInterrupt` (line 416), so
any other exception propagates and halts the process. -/
def main_catches : PyExn → Bool
  | .keyboardInterrupt => true
  | _ => false

/-! ### Retry Policy Executor (src/pa_chart.py lines 32–63) -/

/-- Outcome of one call of the wrapped operation: it either returns a value
or raises an exception belonging to the decorator's `exception` tuple. -/
inductive Outcome (α : Type)
  | ok (a : α)
  | exn
deriving DecidableEq, Repr

/-- Observable behaviour of one `retry`-wrapped call: the returned value
(`none` means the loop exhausted its budget and called `sys.exit()`), the
number of calls made to the wrapped function, the sleeps performed (seconds,
in order), and the log events emitted (attempt number, max_attempts). -/
structure RetryResult (α : Type) where
  result : Option α
  calls : Nat
  sleeps : List Nat
  logs : List (Nat × Nat)
deriving DecidableEq, Repr

/-- The body of `wrapper` (lines 49–61).  `fuel` is `max_attempts - attempts`,
so `fuel = 0` is exactly the exit of `while attempts < max_attempts`: the
post-loop `logger.exception` fires once more and `sys.exit()` runs.  On a
caught exception the code computes `adjusted_delay = delay + escalation *
attempts`, increments `attempts`, logs `attempt #attempts of max_attempts`,
and sleeps only when `attempts < max_attempts` still holds. -/
def retryLoop (max_attempts delay escalation : Nat) (outcomes : Nat → Outcome α) :
    Nat → Nat → RetryResult α
  | 0, attempts => ⟨none, 0, [], [(attempts, max_attempts)]⟩
  | fuel + 1, attempts =>
    match outcomes attempts with
    | .ok a => ⟨some a, 1, [], []⟩
    | .exn =>
      let adjusted_delay := delay + escalation * attempts
      let rest := retryLoop max_attempts delay escalation outcomes fuel (attempts + 1)
      ⟨rest.result, rest.calls + 1,
        (if attempts + 1 < max_attempts then [adjusted_delay] else []) ++ rest.sleeps,
        (attempts + 1, max_attempts) :: rest.logs⟩

/-- Execution of `retry(max_attempts, delay, escalation)` applied to an
operation whose successive calls behave as `outcomes`. -/
def retry_run (max_attempts delay escalation : Nat) (outcomes : Nat → Outcome α) :
    RetryResult α :=
  retryLoop max_attempts delay escalation outcomes max_attempts 0

/-! ### get_live_reading (src/pa_chart.py lines 91–111) -/

/-- An HTTP response: `ok` is `requests`' 2xx/3xx success flag, `text` the
body. -/
structure Response where
  ok : Bool
  text : String
deriving DecidableEq, Repr

/-- Result of one `requests.get` call: either it raises a
`requests.exceptions.RequestException` (connection error, timeout, …) or it
completes with a `Response` of any status. -/
inductive NetResult
  | exn
  | resp (r : Response)
deriving DecidableEq, Repr

/-- One attempt of `get_live_reading` (lines 103–111): a transport exception
propagates to the decorator; a completed response — 2xx or not — is returned
as `(live_response, conn_success)` where `conn_success = live_response.ok`
(a non-2xx status only logs an error). -/
def get_live_reading_once : NetResult → Outcome (Response × Bool)
  | .exn => .exn
  | .resp r => .ok (r, r.ok)

/-- Behaviour of `get_live_reading` as decorated at line 91:
`@retry(max_attempts=8, delay=90, escalation=160, exception=(RequestException, ...))`. -/
def get_live_reading (net : Nat → NetResult) : RetryResult (Response × Bool) :=
  retry_run 8 90 160 (fun i => get_live_reading_once (net i))

/-! ### Time-Series Store: write_data (src/pa_chart.py lines 114–143) -/

/-- One line of the CSV store: the header row `datetime,pm25_epa_aqi` or a
data row `strftime(dt),value`. -/
inductive Rec
  | header
  | data (dt : Int) (value : ℚ)
deriving DecidableEq, Repr

/-- Rendering of a record to its single CSV line.  A data row's first field
is `strftime('%Y-%m-%dT%H:%M:%S')`, modelled opaquely but faithfully: the
formatted text of instant `n` (19 characters, so never the 8-character word
"datetime"). -/
def renderLine : Rec → String
  | .header => "datetime,pm25_epa_aqi"
  | .data dt v => toString dt ++ "," ++ toString v

/-- The backing CSV file: `none` when absent, otherwise its list of lines. -/
abbrev StoreFile := Option (List Rec)

/-- Embedding of `write_data` (lines 114–143): returns unchanged on `conn_success = False`;
otherwise determines `file_empty` (absent file, or a file whose first read
character is empty), appends the header row when empty, then appends one data
row stamped `datetime.now()`. -/
def write_data (now : Int) (pm25_epa_aqi : ℚ) (conn_success : Bool)
    (file : StoreFile) : StoreFile :=
  if conn_success = false then file
  else
    let lines := file.getD []
    let file_empty := lines.isEmpty
    some (lines ++ (if file_empty then [Rec.header] else []) ++ [Rec.data now pm25_epa_aqi])

/-- A sequence of successful-connection appends, each with its own timestamp
and value, folded over the store. -/
def appendAll (ws : List (Int × ℚ)) (file : StoreFile) : StoreFile :=
  ws.foldl (fun f w => write_data w.1 w.2 true f) file

/-! ### Reading Normalizer: process_sensor_reading (src/pa_chart.py lines 183–200) -/

/-- The decoded JSON payload: named numeric fields. -/
abbrev Payload := List (String × ℚ)

/-- Python dict subscription: a missing key raises `KeyError`. -/
def getKey (p : Payload) (k : String) : Except PyExn ℚ :=
  match p.lookup k with
  | some v => .ok v
  | none => .error (.keyError k)

/-- Embedding of `process_sensor_reading` (lines 196–200): averages the paired channels and
adds the fixed +4 humidity calibration offset; a missing field raises
`KeyError`, evaluated left to right as in the source. -/
def process_sensor_reading (p : Payload) : Except PyExn (ℚ × ℚ × ℚ) := do
  let cf1a ← getKey p "pm2_5_cf_1"
  let cf1b ← getKey p "pm2_5_cf_1_b"
  let atma ← getKey p "pm2_5_atm"
  let atmb ← getKey p "pm2_5_atm_b"
  let hum ← getKey p "current_humidity"
  pure ((cf1a + cf1b) / 2, (atma + atmb) / 2, hum + 4)

/-! ### The log cadence's poll→normalize→convert→append cycle
(src/pa_chart.py lines 376–387, given `get_live_reading` already returned) -/

/-- The body of the log cadence after `get_live_reading` returned
`(live_response, conn_success)` with `payload` the decoded body:
`process_sensor_reading` runs unconditionally (line 377) and its exception
propagates out of `main`'s loop; on success, only a successful connection
converts and appends (`EPA.calculate` and `AQI.calculate` are the external
converter, passed as `epa_calc`/`aqi_calc`). -/
def log_cycle (payload : Payload) (conn_success : Bool) (use_epa_conversion : Bool)
    (epa_calc : ℚ → ℚ → ℚ) (aqi_calc : ℚ → ℚ) (now : Int) (file : StoreFile) :
    Except PyExn StoreFile :=
  match process_sensor_reading payload with
  | .error e => .error e
  | .ok (pm25_cf1, pm25_atm, humidity) =>
    if conn_success then
      let pm25 := if use_epa_conversion then epa_calc humidity pm25_cf1 else pm25_atm
      let pm25_epa_aqi := aqi_calc pm25
      .ok (write_data now pm25_epa_aqi conn_success file)
    else .ok file

/-! ### Retention Truncator: truncate_earliest_data (src/pa_chart.py lines 146–180) -/

/-- A parsed data row of the store as `csv.DictReader` yields it: the
timestamp (after `strptime`) and the value's text. -/
structure Row where
  dt : Int
  value : String
deriving DecidableEq, Repr

/-- Evaluation of `max(row['datetime'] for row in data)`: `none` on an empty sequence,
where Python raises `ValueError`. -/
def maxDatetime (data : List Row) : Option Int :=
  data.foldl (fun acc r => match acc with
    | none => some r.dt
    | some m => some (max m r.dt)) none

/-- What one call of `truncate_earliest_data` does to the backing file. -/
inductive TruncResult
  | fileNotFound
  | raised (e : PyExn)
  | noRewrite
  | rewrite (kept : List Row)
deriving DecidableEq, Repr

/-- Embedding of `truncate_earliest_data` (lines 158–180): an absent file logs and
returns; otherwise `latest_date = max(...)` (ValueError on an empty record
list), `cutoff_date = latest_date - timedelta(days=days_to_log)`, the rows
with `datetime >= cutoff_date` are kept in order, and the file is rewritten
(header plus kept rows) only when the kept count differs from the original. -/
def truncate_earliest_data : Option (List Row) → Int → TruncResult
  | none, _ => .fileNotFound
  | some data, days_to_log =>
    match maxDatetime data with
    | none => .raised .valueError
    | some latest_date =>
      let cutoff_date := latest_date - days_to_log * 86400
      let filtered_data := data.filter (fun row => cutoff_date ≤ row.dt)
      if filtered_data.length = data.length then .noRewrite
      else .rewrite filtered_data

/-- The series left on disk after one `truncate_earliest_data` call that did
not raise: unchanged unless a rewrite happened. -/
def seriesAfter (file : Option (List Row)) (days_to_log : Int) : Option (List Row) :=
  match truncate_earliest_data file days_to_log with
  | .rewrite kept => some kept
  | _ => file

/-! ### Multi-Cadence Scheduler: main's loop body (src/pa_chart.py lines 372–414) -/

/-- The cadence knobs from src/config.py (lines 18–27). -/
structure SchedConfig where
  logging_start_hour : Nat
  logging_finish_hour : Nat
  logging_interval : Int
  plotting_interval : Int
  truncate_interval : Int
deriving DecidableEq, Repr

/-- The shipped defaults of src/config.py. -/
def defaultConfig : SchedConfig :=
  { logging_start_hour := 0, logging_finish_hour := 24,
    logging_interval := 120, plotting_interval := 240, truncate_interval := 24 }

/-- The three "last fired at" instants of the loop. -/
structure SchedState where
  log_delay_loop_start : Int
  plot_delay_loop_start : Int
  truncate_delay_loop_start : Int
deriving DecidableEq, Repr

/-- Which cadence actions fired during one tick. -/
structure TickActions where
  logged : Bool
  plotted : Bool
  truncated : Bool
deriving DecidableEq, Repr

/-- One iteration of `while 1` (lines 373–414), abstracting the actions
themselves: the chained gate `logging_start_hour < datetime.now().hour <=
logging_finish_hour` guards all three cadence checks; inside it, each cadence
fires when its elapsed time strictly exceeds its interval and then resets its
clock to `now`.  The truncation check divides elapsed seconds by 3600 and
compares with `truncate_interval` hours — rescaled exactly to integers here. -/
def tick (cfg : SchedConfig) (hour : Nat) (now : Int) (st : SchedState) :
    TickActions × SchedState :=
  if cfg.logging_start_hour < hour ∧ hour ≤ cfg.logging_finish_hour then
    let logged := cfg.logging_interval < now - st.log_delay_loop_start
    let plotted := cfg.plotting_interval < now - st.plot_delay_loop_start
    let truncated := cfg.truncate_interval * 3600 < now - st.truncate_delay_loop_start
    (⟨logged, plotted, truncated⟩,
     ⟨if logged then now else st.log_delay_loop_start,
      if plotted then now else st.plot_delay_loop_start,
      if truncated then now else st.truncate_delay_loop_start⟩)
  else (⟨false, false, false⟩, st)

/-! ### init: the truncation checkpoint at startup (src/pa_chart.py lines 337–356) -/

/-- What `init` decides about `truncate_delay_loop_start`: the baseline
instant and the checkpoint file's content after startup (`none` only on an
exception).  `checkpoint` is the parsed content of
`truncate_delay_loop_start.txt`, `none` when the file is absent.

The local variable `truncate_delay_loop_start_file` is assigned only inside
the custom-storage-path `else` branch (line 348); when
`use_default_storage_paths` is true the read at line 349 hits an unassigned
local, raising `UnboundLocalError`. -/
def init_truncate_start (use_default_storage_paths : Bool) (checkpoint : Option Int)
    (now : Int) : Except PyExn (Int × Int) :=
  let truncate_delay_loop_start_file : Option String :=
    if use_default_storage_paths then none else some "truncate_delay_loop_start.txt"
  match truncate_delay_loop_start_file with
  | none => .error .unboundLocalError
  | some _ =>
    match checkpoint with
    | some stored => .ok (stored, stored)
    | none => .ok (now, now)

/-! ## Helper lemmas -/

lemma retryLoop_ok_step (m d e : Nat) (o : Nat → Outcome α) (fuel attempts : Nat) (a : α)
    (h : o attempts = .ok a) :
    retryLoop m d e o (fuel + 1) attempts = ⟨some a, 1, [], []⟩ := by
  simp [retryLoop, h]

lemma retryLoop_exn_step (m d e : Nat) (o : Nat → Outcome α) (fuel attempts : Nat)
    (h : o attempts = .exn) :
    retryLoop m d e o (fuel + 1) attempts =
      ⟨(retryLoop m d e o fuel (attempts + 1)).result,
       (retryLoop m d e o fuel (attempts + 1)).calls + 1,
       (if attempts + 1 < m then [d + e * attempts] else []) ++
         (retryLoop m d e o fuel (attempts + 1)).sleeps,
       (attempts + 1, m) :: (retryLoop m d e o fuel (attempts + 1)).logs⟩ := by
  simp [retryLoop, h]

lemma map_range_shift (f : Nat → β) (k : Nat) :
    (List.range (k + 1)).map f = f 0 :: (List.range k).map (fun i => f (i + 1)) := by
  rw [List.range_succ_eq_map, List.map_cons, List.map_map]
  rfl

lemma retryLoop_succeeds (m d e : Nat) (o : Nat → Outcome α) (a : α) :
    ∀ (k fuel attempts : Nat), k < fuel → attempts + fuel = m →
      (∀ i, i < k → o (attempts + i) = .exn) → o (attempts + k) = .ok a →
      retryLoop m d e o fuel attempts =
        ⟨some a, k + 1,
          (List.range k).map (fun i => d + e * (attempts + i)),
          (List.range k).map (fun i => (attempts + i + 1, m))⟩ := by
  intro k
  induction k with
  | zero =>
    intro fuel attempts hk hm hfail hok
    cases fuel with
    | zero => omega
    | succ f =>
      rw [retryLoop_ok_step m d e o f attempts a (by simpa using hok)]
      simp
  | succ k ih =>
    intro fuel attempts hk hm hfail hok
    cases fuel with
    | zero => omega
    | succ f =>
      have h0 : o attempts = .exn := by simpa using hfail 0 (Nat.succ_pos k)
      rw [retryLoop_exn_step m d e o f attempts h0]
      have hrec := ih f (attempts + 1) (by omega) (by omega)
        (fun i hi => by
          rw [show attempts + 1 + i = attempts + (i + 1) by omega]
          exact hfail (i + 1) (by omega))
        (by
          rw [show attempts + 1 + k = attempts + (k + 1) by omega]
          exact hok)
      rw [hrec]
      have hlt : attempts + 1 < m := by omega
      rw [map_range_shift (fun i => d + e * (attempts + i)) k,
        map_range_shift (fun i => (attempts + i + 1, m)) k]
      simp only [RetryResult.mk.injEq, hlt, if_pos, List.singleton_append, Nat.add_zero]
      refine ⟨trivial, trivial, ?_, ?_⟩
      · congr 1
        apply List.map_congr_left
        intro i _
        ring
      · congr 1
        apply List.map_congr_left
        intro i _
        rw [Prod.mk.injEq]
        exact ⟨by omega, rfl⟩

lemma retryLoop_exhausts (m d e : Nat) (o : Nat → Outcome α) :
    ∀ (fuel attempts : Nat), attempts + fuel = m →
      (∀ i, i < fuel → o (attempts + i) = .exn) →
      retryLoop m d e o fuel attempts =
        ⟨none, fuel,
          (List.range (fuel - 1)).map (fun i => d + e * (attempts + i)),
          (List.range fuel).map (fun i => (attempts + i + 1, m)) ++ [(m, m)]⟩ := by
  intro fuel
  induction fuel with
  | zero =>
    intro attempts hm _
    simp [retryLoop]
    omega
  | succ f ih =>
    intro attempts hm hfail
    have h0 : o attempts = .exn := by simpa using hfail 0 (Nat.succ_pos f)
    rw [retryLoop_exn_step m d e o f attempts h0]
    have hrec := ih (attempts + 1) (by omega)
      (fun i hi => by
        rw [show attempts + 1 + i = attempts + (i + 1) by omega]
        exact hfail (i + 1) (by omega))
    rw [hrec]
    rw [map_range_shift (fun i => (attempts + i + 1, m)) f]
    cases f with
    | zero =>
      have hge : ¬ (attempts + 1 < m) := by omega
      simp [hge]
    | succ f' =>
      have hlt : attempts + 1 < m := by omega
      rw [show (f' + 1 + 1) - 1 = f' + 1 by omega,
        map_range_shift (fun i => d + e * (attempts + i)) f']
      simp only [RetryResult.mk.injEq, hlt, if_pos, List.singleton_append, Nat.add_zero,
        List.cons_append, Nat.add_sub_cancel]
      refine ⟨trivial, trivial, ?_, ?_⟩
      · congr 1
        apply List.map_congr_left
        intro i _
        ring
      · congr 1
        congr 1
        apply List.map_congr_left
        intro i _
        rw [Prod.mk.injEq]
        exact ⟨by omega, rfl⟩

lemma foldl_max_some (rs : List Row) : ∀ (m : Int),
    rs.foldl (fun acc r => match acc with
      | none => some r.dt
      | some m' => some (max m' r.dt)) (some m)
      = some (rs.foldl (fun acc r => max acc r.dt) m) := by
  induction rs with
  | nil => intro m; rfl
  | cons r rs ih => intro m; simp only [List.foldl_cons]; exact ih (max m r.dt)

lemma maxDatetime_cons (r : Row) (rs : List Row) :
    maxDatetime (r :: rs) = some (rs.foldl (fun acc x => max acc x.dt) r.dt) := by
  unfold maxDatetime
  simp only [List.foldl_cons]
  exact foldl_max_some rs r.dt

lemma foldl_max_le (rs : List Row) : ∀ m : Int,
    m ≤ rs.foldl (fun acc x => max acc x.dt) m := by
  induction rs with
  | nil => intro m; exact le_refl m
  | cons r rs ih =>
    intro m
    simp only [List.foldl_cons]
    exact le_trans (le_max_left m r.dt) (ih (max m r.dt))

lemma foldl_max_ub (rs : List Row) : ∀ (m : Int) (x : Row), x ∈ rs →
    x.dt ≤ rs.foldl (fun acc y => max acc y.dt) m := by
  induction rs with
  | nil => intro m x hx; cases hx
  | cons r rs ih =>
    intro m x hx
    simp only [List.foldl_cons]
    cases hx with
    | head => exact le_trans (le_max_right m _) (foldl_max_le rs _)
    | tail _ h => exact ih _ x h

lemma foldl_max_attained (rs : List Row) : ∀ m : Int,
    rs.foldl (fun acc y => max acc y.dt) m = m ∨
      ∃ x ∈ rs, rs.foldl (fun acc y => max acc y.dt) m = x.dt := by
  induction rs with
  | nil => intro m; exact Or.inl rfl
  | cons r rs ih =>
    intro m
    simp only [List.foldl_cons]
    rcases ih (max m r.dt) with h | ⟨x, hx, h⟩
    · rcases le_total m r.dt with hle | hle
      · exact Or.inr ⟨r, List.mem_cons_self r rs, by rw [h, max_eq_right hle]⟩
      · exact Or.inl (by rw [h, max_eq_left hle])
    · exact Or.inr ⟨x, List.mem_cons_of_mem _ hx, h⟩

lemma maxDatetime_spec (data : List Row) (h : data ≠ []) :
    ∃ latest, maxDatetime data = some latest ∧ (∃ x ∈ data, x.dt = latest) ∧
      ∀ x ∈ data, x.dt ≤ latest := by
  cases data with
  | nil => exact absurd rfl h
  | cons r rs =>
    refine ⟨rs.foldl (fun acc x => max acc x.dt) r.dt, maxDatetime_cons r rs, ?_, ?_⟩
    · rcases foldl_max_attained rs r.dt with h' | ⟨x, hx, h'⟩
      · exact ⟨r, List.mem_cons_self r rs, h'.symm⟩
      · exact ⟨x, List.mem_cons_of_mem _ hx, h'.symm⟩
    · intro x hx
      cases hx with
      | head => exact foldl_max_le rs r.dt
      | tail _ h' => exact foldl_max_ub rs r.dt x h'

lemma seriesAfter_eq_filter (data : List Row) (W : Int) (latest : Int)
    (hmax : maxDatetime data = some latest) :
    seriesAfter (some data) W =
      some (data.filter (fun row => latest - W * 86400 ≤ row.dt)) := by
  have ht : truncate_earliest_data (some data) W =
      (if (data.filter (fun row => latest - W * 86400 ≤ row.dt)).length = data.length
        then .noRewrite
        else .rewrite (data.filter (fun row => latest - W * 86400 ≤ row.dt))) := by
    simp only [truncate_earliest_data, hmax]
  unfold seriesAfter
  rw [ht]
  by_cases hlen : (data.filter (fun row => latest - W * 86400 ≤ row.dt)).length = data.length
  · simp only [hlen, if_pos]
    rw [(List.filter_sublist data).eq_of_length hlen]
  · simp only [hlen, if_neg, not_false_iff]

lemma write_data_true_nonempty (t : Int) (v : ℚ) (l : List Rec) (h : l ≠ []) :
    write_data t v true (some l) = some (l ++ [Rec.data t v]) := by
  cases l with
  | nil => exact absurd rfl h
  | cons x xs => simp [write_data]

lemma appendAll_nonempty (ws : List (Int × ℚ)) : ∀ (l : List Rec), l ≠ [] →
    appendAll ws (some l) = some (l ++ ws.map (fun w => Rec.data w.1 w.2)) := by
  induction ws with
  | nil => intro l _; simp [appendAll]
  | cons w ws ih =>
    intro l h
    have step : appendAll (w :: ws) (some l) =
        appendAll ws (write_data w.1 w.2 true (some l)) := rfl
    rw [step, write_data_true_nonempty w.1 w.2 l h, ih _ (by simp)]
    simp

lemma getKey_error (p : Payload) (k : String) (e : PyExn) (h : getKey p k = .error e) :
    e = .keyError k := by
  unfold getKey at h
  cases hl : p.lookup k <;> rw [hl] at h <;> simp_all

lemma process_sensor_reading_error (p : Payload) (e : PyExn)
    (h : process_sensor_reading p = .error e) : ∃ k, e = .keyError k := by
  unfold process_sensor_reading at h
  simp only [bind, Except.bind] at h
  cases h1 : getKey p "pm2_5_cf_1" with
  | error e1 => rw [h1] at h; exact ⟨_, by cases h; exact getKey_error _ _ _ h1⟩
  | ok v1 =>
    rw [h1] at h
    cases h2 : getKey p "pm2_5_cf_1_b" with
    | error e2 => rw [h2] at h; exact ⟨_, by cases h; exact getKey_error _ _ _ h2⟩
    | ok v2 =>
      rw [h2] at h
      cases h3 : getKey p "pm2_5_atm" with
      | error e3 => rw [h3] at h; exact ⟨_, by cases h; exact getKey_error _ _ _ h3⟩
      | ok v3 =>
        rw [h3] at h
        cases h4 : getKey p "pm2_5_atm_b" with
        | error e4 => rw [h4] at h; exact ⟨_, by cases h; exact getKey_error _ _ _ h4⟩
        | ok v4 =>
          rw [h4] at h
          cases h5 : getKey p "current_humidity" with
          | error e5 => rw [h5] at h; exact ⟨_, by cases h; exact getKey_error _ _ _ h5⟩
          | ok v5 => rw [h5] at h; cases h

/-! ## Claims -/

/-- C1, counterexample.  The claim says a non-2xx HTTP status is a transient
failure handled exactly like a connection error or timeout: retried with
escalating backoff, budget exhaustion being fatal.  On the code, an endpoint
answering every poll with a non-2xx response is never retried:
`get_live_reading` makes exactly one call, performs no backoff sleep, and
returns normally with `conn_success = false` instead of exiting after the
8-attempt budget. -/
theorem non2xx_counterexample :
    (get_live_reading (fun _ => NetResult.resp ⟨false, "bad"⟩)).calls = 1 ∧
    (get_live_reading (fun _ => NetResult.resp ⟨false, "bad"⟩)).sleeps = [] ∧
    (get_live_reading (fun _ => NetResult.resp ⟨false, "bad"⟩)).result =
      some (⟨false, "bad"⟩, false) := by
  decide

/-- C1, amended.  Whenever the first `requests.get` completes with any HTTP
response — success or non-2xx — `get_live_reading` returns it immediately as
`(response, response.ok)` after exactly one call, with no sleep and no retry:
only raised transport exceptions (the `requests` exception tuple) are
retried. -/
theorem non2xx_returns_without_retry (net : Nat → NetResult) (r : Response)
    (h : net 0 = NetResult.resp r) :
    get_live_reading net = ⟨some (r, r.ok), 1, [], []⟩ := by
  unfold get_live_reading retry_run
  have h0 : (fun i => get_live_reading_once (net i)) 0 = Outcome.ok (r, r.ok) := by
    simp [h, get_live_reading_once]
  exact retryLoop_ok_step 8 90 160 _ 7 0 (r, r.ok) h0

/-- C1, witness for `non2xx_returns_without_retry` at a concrete non-2xx
stream. -/
theorem non2xx_returns_without_retry_witness :
    get_live_reading (fun _ => NetResult.resp ⟨false, "bad"⟩) =
      ⟨some (⟨false, "bad"⟩, false), 1, [], []⟩ :=
  non2xx_returns_without_retry (fun _ => NetResult.resp ⟨false, "bad"⟩)
    ⟨false, "bad"⟩ rfl

/-- C2, counterexample.  The claim says the gate is the half-open window
`[start_hour, finish_hour)`, so with the shipped config (start 0, finish 24)
hour 0 is inside the window and the cadence checks must run.  On the code the
chained comparison `start_hour < hour <= finish_hour` excludes hour 0: at
hour 0, with every interval long elapsed, no cadence fires and the state is
untouched. -/
theorem gating_counterexample :
    defaultConfig.logging_start_hour ≤ 0 ∧ (0 : Nat) < defaultConfig.logging_finish_hour ∧
    defaultConfig.logging_interval < (90000000 : Int) - 0 ∧
    defaultConfig.plotting_interval < (90000000 : Int) - 0 ∧
    defaultConfig.truncate_interval * 3600 < (90000000 : Int) - 0 ∧
    tick defaultConfig 0 90000000 ⟨0, 0, 0⟩ = (⟨false, false, false⟩, ⟨0, 0, 0⟩) := by
  decide

/-- C2, amended.  The gating window is `(start_hour, finish_hour]`: on a tick
whose hour satisfies `start_hour < hour ≤ finish_hour` each cadence action
fires exactly when its interval has strictly elapsed, and on any other tick no
cadence action fires and the cadence clocks are untouched, even if the
corresponding interval has elapsed. -/
theorem tick_gating_window (cfg : SchedConfig) (hour : Nat) (now : Int) (st : SchedState) :
    (¬ (cfg.logging_start_hour < hour ∧ hour ≤ cfg.logging_finish_hour) →
      tick cfg hour now st = (⟨false, false, false⟩, st)) ∧
    ((cfg.logging_start_hour < hour ∧ hour ≤ cfg.logging_finish_hour) →
      (tick cfg hour now st).1.logged =
        decide (cfg.logging_interval < now - st.log_delay_loop_start) ∧
      (tick cfg hour now st).1.plotted =
        decide (cfg.plotting_interval < now - st.plot_delay_loop_start) ∧
      (tick cfg hour now st).1.truncated =
        decide (cfg.truncate_interval * 3600 < now - st.truncate_delay_loop_start)) := by
  constructor
  · intro hgate
    unfold tick
    rw [if_neg hgate]
  · intro hgate
    unfold tick
    rw [if_pos hgate]
    exact ⟨rfl, rfl, rfl⟩

/-- C2, witness for `tick_gating_window`: hour 0 under the shipped config is
outside the gate, so the tick is inert. -/
theorem tick_gating_window_witness :
    tick defaultConfig 0 1000 ⟨0, 0, 0⟩ = (⟨false, false, false⟩, ⟨0, 0, 0⟩) :=
  (tick_gating_window defaultConfig 0 1000 ⟨0, 0, 0⟩).1 (by decide)

/-- C3, counterexample.  The claim says the first line of the store after any
appends is exactly `datetime,value`.  The header the code writes is
`['datetime', 'pm25_epa_aqi']`, so after one append to an absent store the
first line is `datetime,pm25_epa_aqi`, not `datetime,value`. -/
theorem header_text_counterexample :
    appendAll [(0, 0)] none = some [Rec.header, Rec.data 0 0] ∧
    renderLine Rec.header = "datetime,pm25_epa_aqi" ∧
    renderLine Rec.header ≠ "datetime,value" := by
  refine ⟨rfl, rfl, ?_⟩
  decide

/-- C3, amended.  After any positive number of appends to an initially absent
or empty store, the first line is exactly `datetime,pm25_epa_aqi` and that
header line appears exactly once in the file. -/
theorem header_invariant (ws : List (Int × ℚ)) (file₀ : StoreFile)
    (hw : ws ≠ []) (h₀ : file₀ = none ∨ file₀ = some []) :
    ∃ lines, appendAll ws file₀ = some lines ∧
      lines.head? = some Rec.header ∧
      lines.count Rec.header = 1 := by
  cases ws with
  | nil => exact absurd rfl hw
  | cons w ws' =>
    have hfirst : write_data w.1 w.2 true file₀ = some [Rec.header, Rec.data w.1 w.2] := by
      rcases h₀ with rfl | rfl <;> rfl
    have happ : appendAll (w :: ws') file₀ =
        appendAll ws' (some [Rec.header, Rec.data w.1 w.2]) := by
      show appendAll ws' (write_data w.1 w.2 true file₀) = _
      rw [hfirst]
    rw [happ, appendAll_nonempty ws' _ (by simp)]
    refine ⟨_, rfl, rfl, ?_⟩
    have hnot : Rec.header ∉
        (Rec.data w.1 w.2 :: ws'.map (fun x => Rec.data x.1 x.2)) := by
      intro hmem
      rcases List.mem_cons.mp hmem with hh | hh
      · exact Rec.noConfusion hh
      · obtain ⟨x, _, hx⟩ := List.mem_map.mp hh
        exact Rec.noConfusion hx
    show ([Rec.header, Rec.data w.1 w.2] ++ ws'.map (fun x => Rec.data x.1 x.2)).count
        Rec.header = 1
    rw [List.cons_append, List.cons_append, List.nil_append, List.count_cons_self,
      List.count_eq_zero.mpr hnot]

/-- C3, witness for `header_invariant`: two appends to an absent store. -/
theorem header_invariant_witness :
    ∃ lines, appendAll [((0 : Int), (1 : ℚ)), (5, 2)] none = some lines ∧
      lines.head? = some Rec.header ∧
      lines.count Rec.header = 1 :=
  header_invariant [(0, 1), (5, 2)] none (by simp) (Or.inl rfl)

/-- C4, counterexample.  The claim says a malformed payload skips the cycle's
write and the scheduler process keeps running.  On the code an empty payload
raises `KeyError` inside `process_sensor_reading`, which `main` does not
catch (it catches only `KeyboardInterrupt`): no sample is appended, but the
process halts. -/
theorem malformed_payload_counterexample :
    log_cycle [] true false (fun _ _ => 0) (fun q => q) 0 none =
      .error (.keyError "pm2_5_cf_1") ∧
    main_catches (.keyError "pm2_5_cf_1") = false :=
  ⟨rfl, rfl⟩

/-- C4, amended.  A payload on which `process_sensor_reading` raises (a
missing expected field) is not retried and the cycle appends nothing, but the
resulting `KeyError` propagates out of the poll cycle uncaught by the
scheduler, halting the process rather than letting it continue. -/
theorem malformed_payload_skips_write_and_halts (p : Payload) (conn use_epa : Bool)
    (epa_calc : ℚ → ℚ → ℚ) (aqi_calc : ℚ → ℚ) (now : Int) (file : StoreFile) (e : PyExn)
    (h : process_sensor_reading p = .error e) :
    log_cycle p conn use_epa epa_calc aqi_calc now file = .error e ∧
    main_catches e = false := by
  constructor
  · simp [log_cycle, h]
  · obtain ⟨k, rfl⟩ := process_sensor_reading_error p e h
    rfl

/-- C4, witness for `malformed_payload_skips_write_and_halts` on a payload
missing the `pm2_5_cf_1` field. -/
theorem malformed_payload_witness :
    log_cycle [("pm2_5_atm", 3)] true false (fun _ _ => 0) (fun q => q) 0 none =
      .error (.keyError "pm2_5_cf_1") ∧
    main_catches (.keyError "pm2_5_cf_1") = false :=
  malformed_payload_skips_write_and_halts [("pm2_5_atm", 3)] true false
    (fun _ _ => 0) (fun q => q) 0 none (.keyError "pm2_5_cf_1") rfl

/-- C5, code_bug.  The claim (and the spec's checkpoint-durability intent) is
that at every startup the truncation checkpoint is read from its file when
present and created with "now" when absent, in both storage-path
configurations.  In the code the local `truncate_delay_loop_start_file` is
assigned only inside the custom-path `else` branch, so with the shipped
default `use_default_storage_paths = True` the checkpoint read raises
`UnboundLocalError`; the custom-path configuration behaves as specified
(persisted value resumed, otherwise created with "now"). -/
theorem init_default_paths_unbound_local (checkpoint : Option Int) (now : Int) :
    init_truncate_start true checkpoint now = .error .unboundLocalError ∧
    (∀ stored, init_truncate_start false (some stored) now = .ok (stored, stored)) ∧
    init_truncate_start false none now = .ok (now, now) :=
  ⟨rfl, fun _ => rfl, rfl⟩

/-- C6, confirmed.  For `k` transient failures (`k < max_attempts`) followed
by one success, the executor returns that success immediately: `k + 1` calls
are observed, the sleeps are exactly `delay + escalation * i` before retry
`i` (`i` starting at 0, one sleep per failure, none after the success), and
one failure log event per failed attempt is emitted. -/
theorem retry_success_after_failures (max_attempts delay escalation k : Nat)
    (o : Nat → Outcome α) (a : α) (hk : k < max_attempts)
    (hfail : ∀ i, i < k → o i = .exn) (hok : o k = .ok a) :
    retry_run max_attempts delay escalation o =
      ⟨some a, k + 1,
        (List.range k).map (fun i => delay + escalation * i),
        (List.range k).map (fun i => (i + 1, max_attempts))⟩ := by
  unfold retry_run
  have hrun := retryLoop_succeeds max_attempts delay escalation o a k max_attempts 0 hk
    (by omega) (fun i hi => by simpa using hfail i hi) (by simpa using hok)
  rw [hrun]
  simp only [Nat.zero_add]

/-- C6, witness for `retry_success_after_failures`: one failure then success
under `max_attempts = 3, delay = 2, escalation = 10`. -/
theorem retry_success_after_failures_witness :
    retry_run 3 2 10 (fun i => if i = 0 then Outcome.exn else Outcome.ok 42) =
      ⟨some 42, 2, [2], [(1, 3)]⟩ := by
  rw [retry_success_after_failures 3 2 10 1
    (fun i => if i = 0 then Outcome.exn else Outcome.ok 42) 42 (by omega)
    (by intro i hi; interval_cases i; rfl) rfl]
  decide

/-- C7, counterexample.  The claim says budget exhaustion logs exactly one
"max attempts reached" event.  With the shipped `get_live_reading` budget of
8 and every call failing, the process does exit (`result = none`), but the
log event carrying the exhausted budget — attempt #8 of 8 — is emitted twice:
once by the per-attempt logging of the final failure and once again by the
post-loop logging before `sys.exit()`. -/
theorem retry_exhaustion_counterexample :
    (get_live_reading (fun _ => NetResult.exn)).result = none ∧
    (get_live_reading (fun _ => NetResult.exn)).logs.count (8, 8) = 2 := by
  decide

/-- C7, amended.  For `max_attempts ≥ 1` consecutive transient failures the
executor terminates the process (`sys.exit`, no result) after exactly
`max_attempts` calls; the log trace is one event per failed attempt plus one
final post-loop event that duplicates the last one, so the exhausted-budget
event `attempt #N of N` is logged exactly twice, not once. -/
theorem retry_exhaustion_exits_and_logs (max_attempts delay escalation : Nat)
    (o : Nat → Outcome α) (hm : 1 ≤ max_attempts)
    (hfail : ∀ i, i < max_attempts → o i = .exn) :
    (retry_run max_attempts delay escalation o).result = none ∧
    (retry_run max_attempts delay escalation o).calls = max_attempts ∧
    (retry_run max_attempts delay escalation o).logs =
      (List.range max_attempts).map (fun i => (i + 1, max_attempts)) ++
        [(max_attempts, max_attempts)] ∧
    (retry_run max_attempts delay escalation o).logs.count
      (max_attempts, max_attempts) = 2 := by
  have hrun := retryLoop_exhausts max_attempts delay escalation o max_attempts 0
    (by omega) (fun i hi => by simpa using hfail i hi)
  simp only [Nat.zero_add] at hrun
  unfold retry_run
  rw [hrun]
  refine ⟨rfl, rfl, rfl, ?_⟩
  obtain ⟨n, rfl⟩ : ∃ n, max_attempts = n + 1 := ⟨max_attempts - 1, by omega⟩
  rw [List.range_succ, List.map_append, List.count_append, List.count_append]
  have h0 : ((List.range n).map (fun i => (i + 1, n + 1))).count (n + 1, n + 1) = 0 := by
    rw [List.count_eq_zero]
    intro hmem
    obtain ⟨i, hi, hx⟩ := List.mem_map.mp hmem
    rw [List.mem_range] at hi
    rw [Prod.mk.injEq] at hx
    omega
  rw [h0]
  simp

/-- C7, witness for `retry_exhaustion_exits_and_logs` at the shipped budget
of 8 with every call failing. -/
theorem retry_exhaustion_exits_and_logs_witness :
    (retry_run 8 90 160 (fun _ => Outcome.exn (α := Nat))).result = none ∧
    (retry_run 8 90 160 (fun _ => Outcome.exn (α := Nat))).calls = 8 ∧
    (retry_run 8 90 160 (fun _ => Outcome.exn (α := Nat))).logs =
      (List.range 8).map (fun i => (i + 1, 8)) ++ [(8, 8)] ∧
    (retry_run 8 90 160 (fun _ => Outcome.exn (α := Nat))).logs.count (8, 8) = 2 :=
  retry_exhaustion_exits_and_logs 8 90 160 (fun _ => Outcome.exn) (by omega)
    (fun _ _ => rfl)

/-- C8, confirmed.  For every non-empty series, truncation takes the maximum
timestamp (`latest`, attained and an upper bound of the series), computes
`cutoff = latest − W` days, and leaves on disk exactly the samples with
timestamp ≥ cutoff, in their original order (the filtered subsequence). -/
theorem truncation_retention (data : List Row) (W : Int) (hne : data ≠ []) :
    ∃ latest, maxDatetime data = some latest ∧
      (∃ x ∈ data, x.dt = latest) ∧ (∀ x ∈ data, x.dt ≤ latest) ∧
      seriesAfter (some data) W =
        some (data.filter (fun row => latest - W * 86400 ≤ row.dt)) := by
  obtain ⟨latest, hmax, hatt, hub⟩ := maxDatetime_spec data hne
  exact ⟨latest, hmax, hatt, hub, seriesAfter_eq_filter data W latest hmax⟩

/-- C8, witness for `truncation_retention`: samples at `t−20d, t−13d, t−1d, t`
(with `t = 0`) and a 14-day window keep exactly the last three. -/
theorem truncation_retention_witness :
    (∃ latest, maxDatetime [⟨-1728000, "a"⟩, ⟨-1123200, "b"⟩, ⟨-86400, "c"⟩, ⟨0, "d"⟩]
        = some latest ∧
      (∃ x ∈ ([⟨-1728000, "a"⟩, ⟨-1123200, "b"⟩, ⟨-86400, "c"⟩, ⟨0, "d"⟩] : List Row),
        x.dt = latest) ∧
      (∀ x ∈ ([⟨-1728000, "a"⟩, ⟨-1123200, "b"⟩, ⟨-86400, "c"⟩, ⟨0, "d"⟩] : List Row),
        x.dt ≤ latest) ∧
      seriesAfter (some [⟨-1728000, "a"⟩, ⟨-1123200, "b"⟩, ⟨-86400, "c"⟩, ⟨0, "d"⟩]) 14 =
        some (List.filter (fun row => latest - 14 * 86400 ≤ row.dt)
          [⟨-1728000, "a"⟩, ⟨-1123200, "b"⟩, ⟨-86400, "c"⟩, ⟨0, "d"⟩])) ∧
    seriesAfter (some [⟨-1728000, "a"⟩, ⟨-1123200, "b"⟩, ⟨-86400, "c"⟩, ⟨0, "d"⟩]) 14 =
      some [⟨-1123200, "b"⟩, ⟨-86400, "c"⟩, ⟨0, "d"⟩] :=
  ⟨truncation_retention [⟨-1728000, "a"⟩, ⟨-1123200, "b"⟩, ⟨-86400, "c"⟩, ⟨0, "d"⟩] 14
      (by simp),
    by decide⟩

/-- C9, confirmed.  Truncation never rewrites when nothing is pruned: if the
kept count equals the original count the call is a no-op, and for every
non-empty series (and the nonnegative retention window the program uses) a
second truncation immediately after a first one performs no rewrite and
leaves the series unchanged. -/
theorem truncation_idempotent (data : List Row) (W : Int) (hne : data ≠ []) (hW : 0 ≤ W) :
    (∀ latest, maxDatetime data = some latest →
      ((data.filter (fun row => latest - W * 86400 ≤ row.dt)).length = data.length →
        truncate_earliest_data (some data) W = .noRewrite)) ∧
    truncate_earliest_data (seriesAfter (some data) W) W = .noRewrite ∧
    seriesAfter (seriesAfter (some data) W) W = seriesAfter (some data) W := by
  obtain ⟨latest, hmax, ⟨xm, hxm_mem, hxm_dt⟩, hub⟩ := maxDatetime_spec data hne
  have hfilter := seriesAfter_eq_filter data W latest hmax
  have hxm_in : xm ∈ data.filter (fun row => latest - W * 86400 ≤ row.dt) := by
    rw [List.mem_filter]
    refine ⟨hxm_mem, ?_⟩
    rw [hxm_dt]
    simp only [decide_eq_true_eq]
    omega
  have hne' : data.filter (fun row => latest - W * 86400 ≤ row.dt) ≠ [] :=
    List.ne_nil_of_mem hxm_in
  obtain ⟨latest', hmax', ⟨y, hy_mem, hy_dt⟩, hub'⟩ := maxDatetime_spec _ hne'
  have hy_data : y ∈ data := (List.mem_filter.mp hy_mem).1
  have hlatest' : latest' = latest := by
    have h1 := hub' xm hxm_in
    have h2 := hub y hy_data
    omega
  rw [hlatest'] at hmax'
  have hfix : (data.filter (fun row => latest - W * 86400 ≤ row.dt)).filter
      (fun row => latest - W * 86400 ≤ row.dt) =
      data.filter (fun row => latest - W * 86400 ≤ row.dt) :=
    List.filter_eq_self.mpr (fun a ha => (List.mem_filter.mp ha).2)
  have htrunc' : truncate_earliest_data
      (some (data.filter (fun row => latest - W * 86400 ≤ row.dt))) W = .noRewrite := by
    simp only [truncate_earliest_data, hmax']
    rw [hfix]
    simp
  refine ⟨?_, ?_, ?_⟩
  · intro l hmaxl hlen
    rw [hmax] at hmaxl
    injection hmaxl with h'
    subst h'
    simp only [truncate_earliest_data, hmax]
    rw [if_pos hlen]
  · rw [hfilter]
    exact htrunc'
  · rw [hfilter]
    simp only [seriesAfter, htrunc']

/-- C9, witness for `truncation_idempotent`: the second truncation after the
14-day prune of the four-sample series is a no-op. -/
theorem truncation_idempotent_witness :
    truncate_earliest_data
      (seriesAfter (some [⟨-1728000, "a"⟩, ⟨-1123200, "b"⟩, ⟨-86400, "c"⟩, ⟨0, "d"⟩]) 14)
      14 = .noRewrite ∧
    seriesAfter
      (seriesAfter (some [⟨-1728000, "a"⟩, ⟨-1123200, "b"⟩, ⟨-86400, "c"⟩, ⟨0, "d"⟩]) 14)
      14 =
      seriesAfter (some [⟨-1728000, "a"⟩, ⟨-1123200, "b"⟩, ⟨-86400, "c"⟩, ⟨0, "d"⟩]) 14 :=
  (truncation_idempotent [⟨-1728000, "a"⟩, ⟨-1123200, "b"⟩, ⟨-86400, "c"⟩, ⟨0, "d"⟩] 14
    (by simp) (by norm_num)).2

/-- C10, confirmed.  On a backing file that exists but holds zero data
records (empty or header-only, both of which `csv.DictReader` yields as an
empty record list), truncation does not return as a no-op: `max()` of the
empty sequence raises `ValueError`, which `main` does not catch; on any
series with at least one record no such error is raised. -/
theorem truncate_empty_raises (W : Int) :
    truncate_earliest_data (some []) W = .raised .valueError ∧
    main_catches .valueError = false ∧
    ∀ data : List Row, data ≠ [] →
      truncate_earliest_data (some data) W ≠ .raised .valueError := by
  refine ⟨rfl, rfl, ?_⟩
  intro data hne
  obtain ⟨latest, hmax, _, _⟩ := maxDatetime_spec data hne
  simp only [truncate_earliest_data, hmax]
  split
  · exact fun hc => TruncResult.noConfusion hc
  · exact fun hc => TruncResult.noConfusion hc

/-- C10, witness for `truncate_empty_raises`: the empty record list raises,
a one-record series does not. -/
theorem truncate_empty_raises_witness :
    truncate_earliest_data (some ([] : List Row)) 14 = .raised .valueError ∧
    truncate_earliest_data (some [⟨0, "x"⟩]) 14 ≠ .raised .valueError :=
  ⟨(truncate_empty_raises 14).1, (truncate_empty_raises 14).2.2 [⟨0, "x"⟩] (by simp)⟩
